import Mathlib

/-!
Verification of the PDF batch-summarization pipeline (src/main.py).

The program is a linear pipeline: load a YAML configuration (resolving
environment-variable placeholders), enumerate the PDF files of an input
directory, and for each one extract its text, call a remote model for a
summary, truncate the summary to a configured maximum length, and write a
JSON record to the output directory, skipping files whose output already
exists and continuing past per-file failures.

This file is a shallow embedding of that program.  Python strings are
embedded as lists of characters (`Str`), the filesystem of the output
directory as a function from path to optional file state, and the two
external effects (the PDF text extractor and the remote model call) as
oracle values carried by each job.  Each definition is translated from the
corresponding lines of src/main.py, cited in its doc comment.
-/

namespace ApexPdf

/-- Python strings, embedded as lists of characters. -/
abbrev Str := List Char

/-- Embedding of the Python expression `s[:len(p)] == p`, which is the
meaning of `s.startswith(p)`. -/
def startswith (s p : Str) : Bool :=
  decide (s.take p.length = p)

/-- Embedding of the Python expression `s[len(s)-len(p):] == p`, which is the
meaning of `s.endswith(p)`. -/
def endswith (s p : Str) : Bool :=
  decide (s.drop (s.length - p.length) = p)

/-- The set of ASCII characters removed by Python `str.strip()`. -/
def pyWhitespace (c : Char) : Bool :=
  c = ' ' || c = '\t' || c = '\n' || c = '\r' || c = '\x0b' || c = '\x0c'

/-- Embedding of Python `str.strip()`: drop whitespace from both ends. -/
def pyStrip (s : Str) : Str :=
  ((s.dropWhile pyWhitespace).reverse.dropWhile pyWhitespace).reverse

/-- A YAML value, the shape of the loaded configuration (main.py line 41):
scalars, sequences and mappings. -/
inductive Yaml where
  | str (s : Str)
  | int (n : Int)
  | bool (b : Bool)
  | null
  | arr (xs : List Yaml)
  | map (kvs : List (String × Yaml))

/-- Python truthiness (`if not value`) on YAML scalars and collections:
empty string, zero, False, None and empty collections are falsy. -/
def pyTruthy : Yaml → Bool
  | .str s => !s.isEmpty
  | .int n => decide (n ≠ 0)
  | .bool b => b
  | .null => false
  | .arr xs => !xs.isEmpty
  | .map kvs => !kvs.isEmpty

/-- The error raised by configuration loading when a referenced environment
variable is absent or empty (main.py line 60). -/
inductive ConfigError where
  | missingEnvVar (name : Str)

/-- The process environment: a partial map from variable names to values,
embedding `os.getenv` (absent variables yield `none`). -/
abbrev Env := Str → Option Str

/-- The placeholder opening delimiter, the Python literal of two characters
dollar and opening brace checked on main.py line 55. -/
def phPre : Str := ['$', '\x7b']

/-- The placeholder closing delimiter, the closing-brace literal checked on
main.py line 55. -/
def phSuf : Str := ['\x7d']

mutual

/-- Embedding of `Config.resolve_env_variables` (main.py lines 47-62).
Mappings and sequences are resolved recursively; a string that starts with
the two-character placeholder opening and ends with the closing brace is
looked up in the environment, where the variable name is the Python slice
`config[2:-1]`; an absent or empty environment value raises; every other
value is returned unchanged. -/
def resolve_env_variables (env : Env) : Yaml → Except ConfigError Yaml
  | .map kvs => (resolveMapItems env kvs).map Yaml.map
  | .arr xs => (resolveArrItems env xs).map Yaml.arr
  | .str s =>
    if startswith s phPre && endswith s phSuf then
      let env_var := (s.drop 2).dropLast
      match env env_var with
      | some v => if v.isEmpty then .error (.missingEnvVar env_var) else .ok (.str v)
      | none => .error (.missingEnvVar env_var)
    else .ok (.str s)
  | .int n => .ok (.int n)
  | .bool b => .ok (.bool b)
  | .null => .ok .null

/-- The mapping branch of `resolve_env_variables`: each value of the dict is
resolved in order, the first failure propagating (main.py lines 49-51). -/
def resolveMapItems (env : Env) : List (String × Yaml) → Except ConfigError (List (String × Yaml))
  | [] => .ok []
  | (k, v) :: kvs => do
    let v2 ← resolve_env_variables env v
    let rest ← resolveMapItems env kvs
    return (k, v2) :: rest

/-- The sequence branch of `resolve_env_variables`: each item of the list is
resolved in order, the first failure propagating (main.py lines 52-53). -/
def resolveArrItems (env : Env) : List Yaml → Except ConfigError (List Yaml)
  | [] => .ok []
  | x :: xs => do
    let x2 ← resolve_env_variables env x
    let rest ← resolveArrItems env xs
    return x2 :: rest

end

/-- The response of the remote model call `self.chain.invoke` together with
the token counters read from the callback (main.py lines 143-147): the
generated text and the provider-reported prompt and completion token
counts. -/
structure LLMResponse where
  content : Str
  prompt_tokens : Nat
  completion_tokens : Nat

/-- The dictionary returned by `PDFAnalyzer.analyze_text`
(main.py lines 157-161). -/
structure AnalysisOut where
  summary : Str
  input_tokens : Nat
  output_tokens : Nat
deriving DecidableEq

/-- Embedding of `PDFAnalyzer.analyze_text` (main.py lines 132-164).  The
remote call is passed in as its result: an error of the chain invocation
propagates (the `except` clause re-raises); on success the generated text
is hard-truncated with the Python slice `summary_text[:max_length]` when
its length exceeds `max_length`, and the token counters are copied from
the callback. -/
def analyze_text (max_length : Nat) (llm : Except String LLMResponse) :
    Except String AnalysisOut :=
  match llm with
  | .error e => .error e
  | .ok resp =>
    let summary_text := resp.content
    let summary_text :=
      if summary_text.length > max_length then summary_text.take max_length
      else summary_text
    .ok { summary := summary_text
          input_tokens := resp.prompt_tokens
          output_tokens := resp.completion_tokens }

/-- Embedding of `PDFExtractor.extract_text` (main.py lines 88-113).  The
outcome of opening and parsing the PDF is passed in: an error propagates
(the `except` clause re-raises); on success the pages are the list of
per-page extracted texts in file order, and the loop appends each non-empty
page text followed by a newline to the accumulator, an empty page
contributing nothing. -/
def extract_text (pdf : Except String (List Str)) : Except String Str :=
  match pdf with
  | .error e => .error e
  | .ok pages =>
    .ok (pages.foldl (fun text p => if p.isEmpty then text else text ++ p ++ ['\n']) [])

/-- The spec-side description of page concatenation, written from the spec
words: the concatenation, in page order, of each page text with a trailing
newline appended after each non-empty page, an empty page contributing
nothing.  Compared with `extract_text` in the refinement theorem below. -/
def pageConcatSpec (pages : List Str) : Str :=
  (pages.map (fun p => if p.isEmpty then [] else p ++ ['\n'])).flatten

/-- The record assembled in `main` and persisted per PDF
(main.py lines 262-268). -/
structure ResultRecord where
  input_pdf : String
  prompt : Str
  summary : Str
  input_tokens : Nat
  output_tokens : Nat
deriving DecidableEq

/-- The state of one file of the output directory: `open(path, "w")` first
creates or truncates the file (an empty file), and a completed
`json.dump` leaves the serialized record. -/
inductive FileState where
  | emptyFile
  | record (r : ResultRecord)
deriving DecidableEq

/-- The output directory as a partial map from path to file state;
`none` means no file exists at that path. -/
abbrev FS := String → Option FileState

/-- The expected output path `output_dir / (stem + "_summary.json")`
computed on main.py line 248. -/
def outPath (outputDir stem : String) : String :=
  outputDir ++ "/" ++ stem ++ "_summary.json"

/-- Embedding of `PDFAnalyzer.save_to_json` (main.py lines 166-181).
`open(output_path, "w")` creates or truncates the file before any content
is produced; `openOk` is whether the open succeeds (a failing open changes
nothing), and `dumpOk` is whether `json.dump` runs to completion (a
serialization or write failure after a successful open leaves the created
empty file behind).  The Boolean of the result is whether the save
succeeded; on failure the exception propagates to the caller. -/
def save_to_json (openOk dumpOk : Bool) (r : ResultRecord) (fs : FS) (path : String) :
    Bool × FS :=
  match openOk, dumpOk with
  | false, _ => (false, fs)
  | true, true => (true, fun p => if p = path then some (.record r) else fs p)
  | true, false => (false, fun p => if p = path then some .emptyFile else fs p)

/-- One log line of the run, keeping only what the claims observe: that a
file was skipped, that extraction was started for it, that it was processed
or that it failed, and the no-PDFs warning. -/
inductive LogEntry where
  | skipped (stem : String)
  | extractionRun (stem : String)
  | processed (stem : String)
  | failed (stem : String)
  | noPdfs
deriving DecidableEq

/-- One input PDF of the batch together with the behaviour of the external
effects on it: the stem of its file name, the outcome of opening and
parsing it (pages of extracted text), the outcome of the remote model call
on its extracted text, and whether opening and writing its output file
succeed. -/
structure PdfJob where
  stem : String
  pdf : Except String (List Str)
  llm : Str → Except String LLMResponse
  openOk : Bool
  dumpOk : Bool

/-- The fixed per-run context of the loop body: the configured maximum
summary length, the text of the prompt template (`template.template`), and
the path resolver embedding `str(pdf_path.resolve())`. -/
structure BatchCtx where
  max_length : Nat
  templateText : Str
  resolvePath : String → String

/-- Embedding of the body of the per-file loop of `main`
(main.py lines 246-276).  The expected output path is computed; if a file
exists there the PDF is skipped with a log line and nothing else runs.
Otherwise extraction, analysis and the save run in order; any failure is
caught by the `except` clause of the loop, which logs the file name and
leaves the iteration (the filesystem keeps whatever state the failing step
left).  On success the assembled record, with the resolved input path, the
stripped template text, and the summary and token counts of the analysis,
is saved to the output path. -/
def process_pdf (ctx : BatchCtx) (outputDir : String) (fs : FS) (job : PdfJob) :
    FS × List LogEntry :=
  let path := outPath outputDir job.stem
  match fs path with
  | some _ => (fs, [.skipped job.stem])
  | none =>
    match extract_text job.pdf with
    | .error _ => (fs, [.extractionRun job.stem, .failed job.stem])
    | .ok text =>
      match analyze_text ctx.max_length (job.llm text) with
      | .error _ => (fs, [.extractionRun job.stem, .failed job.stem])
      | .ok a =>
        let r : ResultRecord :=
          { input_pdf := ctx.resolvePath job.stem
            prompt := pyStrip ctx.templateText
            summary := a.summary
            input_tokens := a.input_tokens
            output_tokens := a.output_tokens }
        match save_to_json job.openOk job.dumpOk r fs path with
        | (true, fs2) => (fs2, [.extractionRun job.stem, .processed job.stem])
        | (false, fs2) => (fs2, [.extractionRun job.stem, .failed job.stem])

/-- The per-file loop of `main` (main.py lines 246-276): each PDF is
handled in enumeration order by `process_pdf`, and the loop always
continues to the next file. -/
def run_batch (ctx : BatchCtx) (outputDir : String) (fs : FS) :
    List PdfJob → FS × List LogEntry
  | [] => (fs, [])
  | job :: jobs =>
    let step := process_pdf ctx outputDir fs job
    let rest := run_batch ctx outputDir step.1 jobs
    (rest.1, step.2 ++ rest.2)

/-- Embedding of the batch part of `main` (main.py lines 241-278): if the
glob found no PDF files a warning is logged and the function returns
without processing; otherwise the loop runs. -/
def batch_main (ctx : BatchCtx) (outputDir : String) (fs : FS) (jobs : List PdfJob) :
    FS × List LogEntry :=
  if jobs.isEmpty then (fs, [.noPdfs])
  else run_batch ctx outputDir fs jobs

/-- Embedding of Python `d.get(key, default)` on the configuration
mappings: the default is used only when the key is absent. -/
def pyGet (kvs : List (String × Yaml)) (key : String) (dflt : Yaml) : Yaml :=
  match kvs.lookup key with
  | some v => v
  | none => dflt

/-- Embedding of the model selection of `main` (main.py lines 219-225):
`model = xai_config.get("model", "grok-beta")`, then
`if not model: raise ValueError(...)`.  The result is the model value, or
an error when the truthiness check fails. -/
def model_check (xai_config : List (String × Yaml)) : Except String Yaml :=
  let model := pyGet xai_config "model" (.str "grok-beta".data)
  if !pyTruthy model then .error "Model not specified in the configuration."
  else .ok model

/-- The upper-case integer attributes of the Python `logging` module: the
exact set of names for which `getattr(logging, name, None)` yields an
`int` after upper-casing, with their numeric levels. -/
def loggingLevels : List (Str × Nat) :=
  [("CRITICAL".data, 50), ("FATAL".data, 50), ("ERROR".data, 40), ("WARNING".data, 30),
   ("WARN".data, 30), ("INFO".data, 20), ("DEBUG".data, 10), ("NOTSET".data, 0)]

/-- Embedding of Python `str.upper()` on the ASCII level names. -/
def pyUpper (s : Str) : Str := s.map Char.toUpper

/-- Embedding of the level computation of `setup_logging`
(main.py lines 65-69): `getattr(logging, log_level.upper(), None)` is an
integer exactly when the upper-cased name is one of the level attributes
of the module; any other name (including attributes that are not integers
and absent attributes) falls back to `logging.INFO = 20`. -/
def setup_logging_level (log_level : Str) : Nat :=
  match loggingLevels.lookup (pyUpper log_level) with
  | some n => n
  | none => 20

/-! ### Helper lemmas -/

/-- Inverting a successful analysis: the summary is the conditionally
truncated generated text and the token counters are copied. -/
theorem analyze_text_ok_inv {maxLen : Nat} {llm : Except String LLMResponse} {a : AnalysisOut}
    (h : analyze_text maxLen llm = .ok a) :
    ∃ resp, llm = .ok resp ∧
      a = { summary := if maxLen < resp.content.length then resp.content.take maxLen
                       else resp.content
            input_tokens := resp.prompt_tokens
            output_tokens := resp.completion_tokens } := by
  cases llm with
  | error e => exact absurd h (by simp [analyze_text])
  | ok resp =>
    refine ⟨resp, rfl, ?_⟩
    simp only [analyze_text, gt_iff_lt, Except.ok.injEq] at h
    exact h.symm

/-- A successful analysis always keeps the summary within the configured
maximum length. -/
theorem analyze_text_summary_le {maxLen : Nat} {llm : Except String LLMResponse} {a : AnalysisOut}
    (h : analyze_text maxLen llm = .ok a) : a.summary.length ≤ maxLen := by
  obtain ⟨resp, -, rfl⟩ := analyze_text_ok_inv h
  by_cases hl : maxLen < resp.content.length
  · simp [hl, List.length_take]
  · simp [hl]; omega

/-- Analysis of a successful remote call never fails. -/
theorem analyze_text_ok_of_ok (maxLen : Nat) (resp : LLMResponse) :
    analyze_text maxLen (.ok resp) =
      .ok { summary := if maxLen < resp.content.length then resp.content.take maxLen
                       else resp.content
            input_tokens := resp.prompt_tokens
            output_tokens := resp.completion_tokens } := by
  simp [analyze_text]

/-- The record assembled in `main` from a job and an analysis result. -/
def builtRecord (ctx : BatchCtx) (job : PdfJob) (a : AnalysisOut) : ResultRecord :=
  { input_pdf := ctx.resolvePath job.stem
    prompt := pyStrip ctx.templateText
    summary := a.summary
    input_tokens := a.input_tokens
    output_tokens := a.output_tokens }

/-- An already-existing output file makes the step skip: the filesystem is
unchanged and only the skip line is logged. -/
theorem process_pdf_skip {ctx : BatchCtx} {outputDir : String} {fs : FS} {job : PdfJob} {v : FileState}
    (h : fs (outPath outputDir job.stem) = some v) :
    process_pdf ctx outputDir fs job = (fs, [.skipped job.stem]) := by
  simp only [process_pdf, h]

/-- A failing extraction leaves the filesystem unchanged. -/
theorem process_pdf_extract_err {ctx : BatchCtx} {outputDir : String} {fs : FS} {job : PdfJob} {e : String}
    (h0 : fs (outPath outputDir job.stem) = none) (h1 : extract_text job.pdf = .error e) :
    process_pdf ctx outputDir fs job = (fs, [.extractionRun job.stem, .failed job.stem]) := by
  simp only [process_pdf, h0, h1]

/-- A failing analysis leaves the filesystem unchanged. -/
theorem process_pdf_analyze_err {ctx : BatchCtx} {outputDir : String} {fs : FS} {job : PdfJob}
    {t : Str} {e : String}
    (h0 : fs (outPath outputDir job.stem) = none) (h1 : extract_text job.pdf = .ok t)
    (h2 : analyze_text ctx.max_length (job.llm t) = .error e) :
    process_pdf ctx outputDir fs job = (fs, [.extractionRun job.stem, .failed job.stem]) := by
  simp only [process_pdf, h0, h1, h2]

/-- A failing open of the output file leaves the filesystem unchanged. -/
theorem process_pdf_open_fail {ctx : BatchCtx} {outputDir : String} {fs : FS} {job : PdfJob}
    {t : Str} {a : AnalysisOut}
    (h0 : fs (outPath outputDir job.stem) = none) (h1 : extract_text job.pdf = .ok t)
    (h2 : analyze_text ctx.max_length (job.llm t) = .ok a) (ho : job.openOk = false) :
    process_pdf ctx outputDir fs job = (fs, [.extractionRun job.stem, .failed job.stem]) := by
  simp only [process_pdf, h0, h1, h2, ho, save_to_json]

/-- A dump failure after a successful open leaves the created empty file. -/
theorem process_pdf_dump_fail {ctx : BatchCtx} {outputDir : String} {fs : FS} {job : PdfJob}
    {t : Str} {a : AnalysisOut}
    (h0 : fs (outPath outputDir job.stem) = none) (h1 : extract_text job.pdf = .ok t)
    (h2 : analyze_text ctx.max_length (job.llm t) = .ok a) (ho : job.openOk = true)
    (hd : job.dumpOk = false) :
    process_pdf ctx outputDir fs job =
      (fun p => if p = outPath outputDir job.stem then some .emptyFile else fs p,
       [.extractionRun job.stem, .failed job.stem]) := by
  simp only [process_pdf, h0, h1, h2, ho, hd, save_to_json]

/-- A fully successful step writes the assembled record at the output
path. -/
theorem process_pdf_success {ctx : BatchCtx} {outputDir : String} {fs : FS} {job : PdfJob}
    {t : Str} {a : AnalysisOut}
    (h0 : fs (outPath outputDir job.stem) = none) (h1 : extract_text job.pdf = .ok t)
    (h2 : analyze_text ctx.max_length (job.llm t) = .ok a) (ho : job.openOk = true)
    (hd : job.dumpOk = true) :
    process_pdf ctx outputDir fs job =
      (fun p => if p = outPath outputDir job.stem then some (.record (builtRecord ctx job a))
        else fs p,
       [.extractionRun job.stem, .processed job.stem]) := by
  simp only [process_pdf, h0, h1, h2, ho, hd, save_to_json, builtRecord]

/-- Exhaustive characterization of the filesystem after one step, at any
path: either the path is untouched, or it is the output path of the step,
was free, and now holds the empty file of a failed dump or the record of a
successful analysis. -/
theorem process_pdf_fst_spec (ctx : BatchCtx) (outputDir : String) (fs : FS) (job : PdfJob)
    (p : String) :
    (process_pdf ctx outputDir fs job).1 p = fs p ∨
    (p = outPath outputDir job.stem ∧ fs p = none ∧
      ((process_pdf ctx outputDir fs job).1 p = some .emptyFile ∨
       ∃ t a, extract_text job.pdf = .ok t ∧
         analyze_text ctx.max_length (job.llm t) = .ok a ∧
         (process_pdf ctx outputDir fs job).1 p = some (.record (builtRecord ctx job a)))) := by
  cases h0 : fs (outPath outputDir job.stem) with
  | some v => rw [process_pdf_skip h0]; exact Or.inl rfl
  | none =>
    cases hex : extract_text job.pdf with
    | error e => rw [process_pdf_extract_err h0 hex]; exact Or.inl rfl
    | ok t =>
      cases han : analyze_text ctx.max_length (job.llm t) with
      | error e => rw [process_pdf_analyze_err h0 hex han]; exact Or.inl rfl
      | ok a =>
        cases ho : job.openOk with
        | false => rw [process_pdf_open_fail h0 hex han ho]; exact Or.inl rfl
        | true =>
          cases hd : job.dumpOk with
          | false =>
            rw [process_pdf_dump_fail h0 hex han ho hd]
            by_cases hp : p = outPath outputDir job.stem
            · subst hp; exact Or.inr ⟨rfl, h0, Or.inl (by simp)⟩
            · exact Or.inl (by simp [hp])
          | true =>
            rw [process_pdf_success h0 hex han ho hd]
            by_cases hp : p = outPath outputDir job.stem
            · subst hp; exact Or.inr ⟨rfl, h0, Or.inr ⟨t, a, rfl, han, by simp⟩⟩
            · exact Or.inl (by simp [hp])

/-- One step never erases and never modifies an existing file. -/
theorem process_pdf_preserves {ctx : BatchCtx} {outputDir : String} {fs : FS} {job : PdfJob}
    {p : String} {v : FileState} (h : fs p = some v) :
    (process_pdf ctx outputDir fs job).1 p = some v := by
  rcases process_pdf_fst_spec ctx outputDir fs job p with hsp | ⟨-, h0, -⟩
  · rw [hsp, h]
  · rw [h] at h0; cases h0

/-! ### Claim theorems -/

/-- Claim C1: for every generated summary text, if its character length
exceeds the configured maximum the stored summary is exactly the first
`max_length` characters (length exactly `max_length`, no ellipsis, no
word-boundary adjustment); at or under the limit the text is unchanged;
and every record persisted by the per-file step satisfies
`len(summary) <= max_length`. -/
theorem C1_summary_truncation (maxLen : Nat) (resp : LLMResponse)
    (ctx : BatchCtx) (outputDir : String) (fs : FS) (job : PdfJob) (p : String)
    (r : ResultRecord) :
    (∃ a, analyze_text maxLen (.ok resp) = .ok a ∧
      (maxLen < resp.content.length →
        a.summary = resp.content.take maxLen ∧ a.summary.length = maxLen) ∧
      (resp.content.length ≤ maxLen → a.summary = resp.content) ∧
      a.summary.length ≤ maxLen) ∧
    (fs p = none → (process_pdf ctx outputDir fs job).1 p = some (.record r) →
      r.summary.length ≤ ctx.max_length) := by
  constructor
  · refine ⟨_, analyze_text_ok_of_ok maxLen resp, ?_, ?_, ?_⟩
    · intro hl
      refine ⟨by simp [hl], ?_⟩
      simp [hl, List.length_take]
      omega
    · intro hl
      simp [Nat.not_lt.mpr hl]
    · by_cases hl : maxLen < resp.content.length
      · simp [hl, List.length_take]
      · simp [hl]; omega
  · intro hnone hrec
    rcases process_pdf_fst_spec ctx outputDir fs job p with
      hsp | ⟨-, -, hsp | ⟨t, a, hex, han, hsp⟩⟩
    · rw [hsp, hnone] at hrec; cases hrec
    · rw [hsp] at hrec; simp at hrec
    · rw [hsp] at hrec
      simp only [Option.some.injEq, FileState.record.injEq] at hrec
      subst hrec
      exact analyze_text_summary_le han

/-- Witness for C1 at a concrete input: a five-character generated text with
a configured maximum of three is truncated to its first three characters,
and a record persisted with that configuration respects the bound. -/
theorem C1_summary_truncation_witness :
    ∃ a, analyze_text 3 (.ok ⟨"hello".data, 5, 8⟩) = .ok a ∧
      a.summary = "hel".data ∧ a.summary.length ≤ 3 := by
  obtain ⟨⟨a, h1, h2, h3, h4⟩, -⟩ :=
    C1_summary_truncation 3 ⟨"hello".data, 5, 8⟩ ⟨3, [], id⟩ "out" (fun _ => none)
      ⟨"doc", .error "e", fun _ => .error "e", true, true⟩ "p" ⟨"i", [], [], 0, 0⟩
  exact ⟨a, h1, ((h2 (by decide)).1).trans (by decide), h4⟩

/-- The extraction loop accumulator: folding the per-page append over any
initial accumulator prepends that accumulator to the spec-side
concatenation. -/
theorem extract_foldl_eq (pages : List Str) (init : Str) :
    pages.foldl (fun text p => if p.isEmpty then text else text ++ p ++ ['\n']) init =
      init ++ pageConcatSpec pages := by
  induction pages generalizing init with
  | nil => simp [pageConcatSpec]
  | cons p ps ih =>
    simp only [List.foldl_cons, ih, pageConcatSpec, List.map_cons, List.flatten_cons]
    by_cases hp : p.isEmpty
    · simp [hp]
    · simp [hp, List.append_assoc]

/-- Claim C7: for every readable PDF, extraction returns the concatenation,
in page order, of each page text with a trailing newline after each
non-empty page, an empty page contributing nothing and not being an error;
extraction fails exactly when the file could not be opened or parsed. -/
theorem C7_extract_concat (pages : List Str) (e : String) (pdf : Except String (List Str)) :
    extract_text (.ok pages) = .ok (pageConcatSpec pages) ∧
    extract_text (.error e) = .error e ∧
    ((extract_text pdf).isOk = pdf.isOk) := by
  refine ⟨?_, rfl, ?_⟩
  · simp only [extract_text]
    rw [extract_foldl_eq]
    simp
  · cases pdf <;> simp [extract_text, Except.isOk, Except.toBool]

/-- Witness for C7 at a concrete input: two non-empty pages around an empty
one concatenate to the two texts, each followed by a newline. -/
theorem C7_extract_concat_witness :
    extract_text (.ok ["pg1".data, [], "pg2".data]) = .ok "pg1\npg2\n".data := by
  have h := (C7_extract_concat ["pg1".data, [], "pg2".data] "e" (.ok [])).1
  rw [h]
  rfl

/-- Claim C8: for an input directory with zero PDF files the run logs the
warning and returns at once: the filesystem is untouched (no output file is
created), nothing is extracted, and no error is produced. -/
theorem C8_no_pdfs (ctx : BatchCtx) (outputDir : String) (fs : FS) :
    batch_main ctx outputDir fs [] = (fs, [LogEntry.noPdfs]) := rfl

/-- Claim C9 counterexample: the error branch guarded by `if not model` is
reachable.  A configuration that explicitly sets `xai.model` to the empty
string bypasses the `.get` default (the key is present) and triggers the
ValueError, refuting the claim that the bound value is always a non-empty
string. -/
theorem C9_counterexample :
    model_check [("model", Yaml.str [])] =
      .error "Model not specified in the configuration." := rfl

/-- Claim C9 as amended: the `.get` default shields only an absent key.
If `xai.model` is absent the bound value is the non-empty default
"grok-beta" and the error branch is not taken; if the key is present the
branch is taken exactly when the configured value is falsy (empty string,
null, zero, false or an empty collection). -/
theorem C9_model_default (cfg : List (String × Yaml)) :
    (cfg.lookup "model" = none → model_check cfg = .ok (.str "grok-beta".data)) ∧
    (∀ v, cfg.lookup "model" = some v → pyTruthy v = true → model_check cfg = .ok v) ∧
    (∀ v, cfg.lookup "model" = some v → pyTruthy v = false →
      model_check cfg = .error "Model not specified in the configuration.") := by
  refine ⟨?_, ?_, ?_⟩
  · intro h
    simp [model_check, pyGet, h, pyTruthy]
  · intro v h htrue
    simp [model_check, pyGet, h, htrue]
  · intro v h hfalse
    simp [model_check, pyGet, h, hfalse]

/-- Witness for the amended C9: with no `model` key the check yields the
default, and with a set non-empty model it yields that model. -/
theorem C9_model_default_witness :
    model_check [] = .ok (.str "grok-beta".data) ∧
    model_check [("model", Yaml.str "grok-2".data)] = .ok (.str "grok-2".data) :=
  ⟨(C9_model_default []).1 rfl,
   (C9_model_default [("model", Yaml.str "grok-2".data)]).2.1 (.str "grok-2".data)
     rfl (by decide)⟩

/-- Claim C10: the level lookup of `setup_logging` is total and silently
falls back to `INFO = 20` whenever the upper-cased name is not one of the
integer level attributes of the logging module; a recognized name maps to
its numeric level. -/
theorem C10_logging_level (s : Str) :
    (loggingLevels.lookup (pyUpper s) = none → setup_logging_level s = 20) ∧
    (∀ n, loggingLevels.lookup (pyUpper s) = some n → setup_logging_level s = n) := by
  constructor
  · intro h; simp [setup_logging_level, h]
  · intro n h; simp [setup_logging_level, h]

/-- Witness for C10: an unrecognized name falls back to 20, and a known
name in lower case maps to its level. -/
theorem C10_logging_level_witness :
    setup_logging_level "verbose".data = 20 ∧ setup_logging_level "debug".data = 10 :=
  ⟨(C10_logging_level "verbose".data).1 (by decide),
   (C10_logging_level "debug".data).2 10 (by decide)⟩

/-- The Python prefix test holds exactly when the string decomposes as the
prefix followed by a remainder. -/
theorem startswith_iff (s p : Str) : startswith s p = true ↔ ∃ t, s = p ++ t := by
  unfold startswith
  rw [decide_eq_true_eq]
  constructor
  · intro h
    exact ⟨s.drop p.length, by conv_lhs => rw [← List.take_append_drop p.length s, h]⟩
  · rintro ⟨t, rfl⟩
    exact List.take_left p t

/-- The Python suffix test holds exactly when the string decomposes as a
remainder followed by the suffix. -/
theorem endswith_iff (s p : Str) : endswith s p = true ↔ ∃ t, s = t ++ p := by
  unfold endswith
  rw [decide_eq_true_eq]
  constructor
  · intro h
    exact ⟨s.take (s.length - p.length),
      by conv_lhs => rw [← List.take_append_drop (s.length - p.length) s, h]⟩
  · rintro ⟨t, rfl⟩
    have hl : (t ++ p).length - p.length = t.length := by simp
    rw [hl, List.drop_left]

/-- The placeholder test of the code (starts with the two-character opening
and ends with the closing brace) holds exactly when the string is of the
whole-value placeholder form around some name. -/
theorem placeholder_cond_iff (s : Str) :
    (startswith s phPre && endswith s phSuf) = true ↔
      ∃ name, s = '$' :: '\x7b' :: (name ++ ['\x7d']) := by
  rw [Bool.and_eq_true, startswith_iff, endswith_iff]
  constructor
  · rintro ⟨⟨t, rfl⟩, ⟨u, hu⟩⟩
    simp only [phPre, phSuf, List.cons_append, List.nil_append] at hu ⊢
    cases u with
    | nil => simp at hu
    | cons a u1 =>
      simp only [List.cons_append] at hu
      obtain ⟨ha, hu⟩ := List.cons.inj hu
      cases u1 with
      | nil => simp at hu
      | cons b u2 =>
        simp only [List.cons_append] at hu
        obtain ⟨hb, hu⟩ := List.cons.inj hu
        exact ⟨u2, by rw [hu]⟩
  · rintro ⟨name, rfl⟩
    refine ⟨⟨name ++ ['\x7d'], rfl⟩, ⟨'$' :: '\x7b' :: name, by simp [phSuf]⟩⟩

/-- The Python slice `config[2:-1]` of a whole-value placeholder recovers
the variable name. -/
theorem placeholder_name_eq (name : Str) :
    (('$' :: '\x7b' :: (name ++ ['\x7d'])).drop 2).dropLast = name := by
  simp [List.dropLast_concat]

/-- Resolution of a whole-value placeholder string: the environment is
consulted for the enclosed name; an absent or empty variable raises and a
set non-empty variable replaces the value. -/
theorem resolve_placeholder (env : Env) (name : Str) :
    resolve_env_variables env (.str ('$' :: '\x7b' :: (name ++ ['\x7d']))) =
      match env name with
      | some v => if v.isEmpty then .error (.missingEnvVar name) else .ok (.str v)
      | none => .error (.missingEnvVar name) := by
  have hcond : (startswith ('$' :: '\x7b' :: (name ++ ['\x7d'])) phPre &&
      endswith ('$' :: '\x7b' :: (name ++ ['\x7d'])) phSuf) = true :=
    (placeholder_cond_iff _).mpr ⟨name, rfl⟩
  simp only [resolve_env_variables, hcond, if_true, placeholder_name_eq]

/-- Claim C2: a configuration string is substituted from the environment
exactly when it is of the exact whole-value form of a placeholder (a
placeholder occurring as a proper substring is left alone); loading fails
with the missing-variable error exactly when the referenced variable is
absent or empty, and a set non-empty variable yields its value; mappings
and sequences are resolved recursively and all other scalars pass through
unchanged. -/
theorem C2_env_resolution (env : Env) :
    (∀ name v, env name = some v → v ≠ [] →
        resolve_env_variables env (.str ('$' :: '\x7b' :: (name ++ ['\x7d']))) =
          .ok (.str v)) ∧
    (∀ name, (env name = none ∨ env name = some []) →
        resolve_env_variables env (.str ('$' :: '\x7b' :: (name ++ ['\x7d']))) =
          .error (.missingEnvVar name)) ∧
    (∀ s, (¬ ∃ name, s = '$' :: '\x7b' :: (name ++ ['\x7d'])) →
        resolve_env_variables env (.str s) = .ok (.str s)) ∧
    (∀ n, resolve_env_variables env (.int n) = .ok (.int n)) ∧
    (∀ b, resolve_env_variables env (.bool b) = .ok (.bool b)) ∧
    (resolve_env_variables env .null = .ok .null) ∧
    (resolve_env_variables env (.map []) = .ok (.map [])) ∧
    (∀ k v kvs v2 rest, resolve_env_variables env v = .ok v2 →
        resolve_env_variables env (.map kvs) = .ok (.map rest) →
        resolve_env_variables env (.map ((k, v) :: kvs)) = .ok (.map ((k, v2) :: rest))) ∧
    (∀ k v kvs e, resolve_env_variables env v = .error e →
        resolve_env_variables env (.map ((k, v) :: kvs)) = .error e) ∧
    (resolve_env_variables env (.arr []) = .ok (.arr [])) ∧
    (∀ x xs x2 rest, resolve_env_variables env x = .ok x2 →
        resolve_env_variables env (.arr xs) = .ok (.arr rest) →
        resolve_env_variables env (.arr (x :: xs)) = .ok (.arr (x2 :: rest))) ∧
    (∀ x xs e, resolve_env_variables env x = .error e →
        resolve_env_variables env (.arr (x :: xs)) = .error e) := by
  refine ⟨?_, ?_, ?_, fun n => rfl, fun b => rfl, rfl, rfl, ?_, ?_, rfl, ?_, ?_⟩
  · intro name v hv hne
    rw [resolve_placeholder, hv]
    simp [List.isEmpty_iff, hne]
  · intro name hv
    rcases hv with hv | hv <;> rw [resolve_placeholder, hv]
    simp
  · intro s hs
    have hcond : (startswith s phPre && endswith s phSuf) = false := by
      rcases h : (startswith s phPre && endswith s phSuf) with - | -
      · rfl
      · exact absurd ((placeholder_cond_iff s).mp h) hs
    simp only [resolve_env_variables, hcond, Bool.false_eq_true, if_false]
  · intro k v kvs v2 rest h1 h2
    simp only [resolve_env_variables] at h2 ⊢
    cases hm : resolveMapItems env kvs with
    | error e => rw [hm] at h2; simp [Except.map] at h2
    | ok l =>
      rw [hm] at h2
      simp only [Except.map, Except.ok.injEq, Yaml.map.injEq] at h2
      subst h2
      have hc : resolveMapItems env ((k, v) :: kvs) = .ok ((k, v2) :: l) := by
        unfold resolveMapItems
        rw [h1, hm]
        rfl
      rw [hc]
      rfl
  · intro k v kvs e h1
    simp only [resolve_env_variables, resolveMapItems, h1]
    rfl
  · intro x xs x2 rest h1 h2
    simp only [resolve_env_variables] at h2 ⊢
    cases hm : resolveArrItems env xs with
    | error e => rw [hm] at h2; simp [Except.map] at h2
    | ok l =>
      rw [hm] at h2
      simp only [Except.map, Except.ok.injEq, Yaml.arr.injEq] at h2
      subst h2
      have hc : resolveArrItems env (x :: xs) = .ok (x2 :: l) := by
        unfold resolveArrItems
        rw [h1, hm]
        rfl
      rw [hc]
      rfl
  · intro x xs e h1
    simp only [resolve_env_variables, resolveArrItems, h1]
    rfl

/-- Witness for C2: a set non-empty variable substitutes a whole-value
placeholder at a concrete environment. -/
theorem C2_env_resolution_witness :
    resolve_env_variables (fun n => if n = "API_KEY".data then some "sk-1".data else none)
      (.str ('$' :: '\x7b' :: ("API_KEY".data ++ ['\x7d']))) = .ok (.str "sk-1".data) :=
  (C2_env_resolution (fun n => if n = "API_KEY".data then some "sk-1".data else none)).1
    "API_KEY".data "sk-1".data (by decide) (by decide)

/-- The filesystem after the loop head: only the tail remains to run. -/
theorem run_batch_fst_cons (ctx : BatchCtx) (outputDir : String) (fs : FS) (job : PdfJob)
    (jobs : List PdfJob) :
    (run_batch ctx outputDir fs (job :: jobs)).1 =
      (run_batch ctx outputDir (process_pdf ctx outputDir fs job).1 jobs).1 := rfl

/-- The log of the loop is the log of the head step followed by the log of
the tail. -/
theorem run_batch_snd_cons (ctx : BatchCtx) (outputDir : String) (fs : FS) (job : PdfJob)
    (jobs : List PdfJob) :
    (run_batch ctx outputDir fs (job :: jobs)).2 =
      (process_pdf ctx outputDir fs job).2 ++
        (run_batch ctx outputDir (process_pdf ctx outputDir fs job).1 jobs).2 := rfl

/-- The whole batch never erases and never modifies an existing file. -/
theorem run_batch_preserves {ctx : BatchCtx} {outputDir : String} {fs : FS}
    {jobs : List PdfJob} {p : String} {v : FileState}
    (h : fs p = some v) : (run_batch ctx outputDir fs jobs).1 p = some v := by
  induction jobs generalizing fs with
  | nil => exact h
  | cons j js ih =>
    rw [run_batch_fst_cons]
    exact ih (process_pdf_preserves h)

/-- A member job whose extraction and analysis succeed and whose output
file can be opened ends the batch with a file present at its output path
(the written record, or at least the empty file of a failed dump, or a
pre-existing file). -/
theorem run_batch_writes {ctx : BatchCtx} {outputDir : String} {fs : FS}
    {jobs : List PdfJob} {job : PdfJob} {t : Str} {a : AnalysisOut}
    (hmem : job ∈ jobs) (hex : extract_text job.pdf = .ok t)
    (han : analyze_text ctx.max_length (job.llm t) = .ok a) (ho : job.openOk = true) :
    ((run_batch ctx outputDir fs jobs).1 (outPath outputDir job.stem)).isSome = true := by
  induction jobs generalizing fs with
  | nil => cases hmem
  | cons j js ih =>
    rw [run_batch_fst_cons]
    rcases List.mem_cons.mp hmem with rfl | hmem2
    · cases h0 : fs (outPath outputDir job.stem) with
      | some v =>
        rw [run_batch_preserves (process_pdf_preserves h0)]
        rfl
      | none =>
        cases hd : job.dumpOk with
        | false =>
          have hstep := process_pdf_dump_fail h0 hex han ho hd
          have hpt : (process_pdf ctx outputDir fs job).1 (outPath outputDir job.stem) =
              some .emptyFile := by rw [hstep]; simp
          rw [run_batch_preserves hpt]
          rfl
        | true =>
          have hstep := process_pdf_success h0 hex han ho hd
          have hpt : (process_pdf ctx outputDir fs job).1 (outPath outputDir job.stem) =
              some (.record (builtRecord ctx job a)) := by rw [hstep]; simp
          rw [run_batch_preserves hpt]
          rfl
    · exact ih hmem2

/-- After the batch has run, every member job is settled: re-processing it
from the final filesystem changes nothing. -/
theorem run_batch_settled (ctx : BatchCtx) (outputDir : String) (fs : FS)
    (jobs : List PdfJob) (job : PdfJob) (hmem : job ∈ jobs) :
    (process_pdf ctx outputDir (run_batch ctx outputDir fs jobs).1 job).1 =
      (run_batch ctx outputDir fs jobs).1 := by
  cases h1 : (run_batch ctx outputDir fs jobs).1 (outPath outputDir job.stem) with
  | some v => rw [process_pdf_skip h1]
  | none =>
    cases hex : extract_text job.pdf with
    | error e => rw [process_pdf_extract_err h1 hex]
    | ok t =>
      cases han : analyze_text ctx.max_length (job.llm t) with
      | error e => rw [process_pdf_analyze_err h1 hex han]
      | ok a =>
        cases ho : job.openOk with
        | false => rw [process_pdf_open_fail h1 hex han ho]
        | true =>
          have hw := @run_batch_writes ctx outputDir fs jobs job t a hmem hex han ho
          rw [h1] at hw
          cases hw

/-- A batch whose every member is settled leaves the filesystem fixed. -/
theorem run_batch_stable (ctx : BatchCtx) (outputDir : String) (fs : FS)
    (jobs : List PdfJob)
    (h : ∀ job ∈ jobs, (process_pdf ctx outputDir fs job).1 = fs) :
    (run_batch ctx outputDir fs jobs).1 = fs := by
  induction jobs with
  | nil => rfl
  | cons j js ih =>
    rw [run_batch_fst_cons, h j (List.mem_cons_self j js)]
    exact ih (fun job hm => h job (List.mem_cons_of_mem j hm))

/-- Claim C3 counterexample: with a write failure after the output file has
been opened (openOk true, dumpOk false), a per-file persistence failure
leaves a file behind for that PDF: the output directory, empty before the
step, holds the created empty file at the output path afterwards.  This
refutes the claim that on any failure the output directory contains no
file for that PDF. -/
theorem C3_counterexample :
    (process_pdf ⟨500, [], id⟩ "out" (fun _ => none)
        ⟨"doc", .ok ["hi".data], fun _ => .ok ⟨"sum".data, 1, 1⟩, true, false⟩).1
      (outPath "out" "doc") = some FileState.emptyFile := by
  have hstep := @process_pdf_dump_fail ⟨500, [], id⟩ "out" (fun _ => none)
    ⟨"doc", .ok ["hi".data], fun _ => .ok ⟨"sum".data, 1, 1⟩, true, false⟩
    "hi\n".data
    ⟨"sum".data, 1, 1⟩
    rfl rfl (analyze_text_ok_of_ok 500 ⟨"sum".data, 1, 1⟩) rfl rfl
  rw [hstep]
  simp

/-- Claim C3 as amended: the output record is written only after both
extraction and summarization succeed, and a failure of extraction or of
summarization leaves the output directory exactly as it was (no partial or
temporary file); a failure of persistence itself, however, can leave the
opened empty file behind, since the output file is created before the
record is serialized into it. -/
theorem C3_write_only_after_success (ctx : BatchCtx) (outputDir : String) (fs : FS)
    (job : PdfJob) :
    (((∃ e, extract_text job.pdf = .error e) ∨
        (∃ t e, extract_text job.pdf = .ok t ∧
          analyze_text ctx.max_length (job.llm t) = .error e)) →
      (process_pdf ctx outputDir fs job).1 = fs) ∧
    (∀ p r, fs p = none →
      (process_pdf ctx outputDir fs job).1 p = some (.record r) →
      ∃ t a, extract_text job.pdf = .ok t ∧
        analyze_text ctx.max_length (job.llm t) = .ok a ∧ r = builtRecord ctx job a) := by
  constructor
  · intro h
    cases h1 : fs (outPath outputDir job.stem) with
    | some v => rw [process_pdf_skip h1]
    | none =>
      rcases h with ⟨e, hex⟩ | ⟨t, e, hex, han⟩
      · rw [process_pdf_extract_err h1 hex]
      · rw [process_pdf_analyze_err h1 hex han]
  · intro p r hnone hrec
    rcases process_pdf_fst_spec ctx outputDir fs job p with
      hsp | ⟨-, -, hsp | ⟨t, a, hex, han, hsp⟩⟩
    · rw [hsp, hnone] at hrec; cases hrec
    · rw [hsp] at hrec; simp at hrec
    · rw [hsp] at hrec
      simp only [Option.some.injEq, FileState.record.injEq] at hrec
      exact ⟨t, a, hex, han, hrec.symm⟩

/-- Witness for the amended C3: a concrete job whose extraction fails
leaves the empty output directory empty. -/
theorem C3_write_only_after_success_witness :
    (process_pdf ⟨500, [], id⟩ "out" (fun _ => none)
        ⟨"doc", .error "bad pdf", fun _ => .error "down", true, true⟩).1 =
      (fun _ => none) :=
  (C3_write_only_after_success ⟨500, [], id⟩ "out" (fun _ => none)
      ⟨"doc", .error "bad pdf", fun _ => .error "down", true, true⟩).1
    (Or.inl ⟨"bad pdf", rfl⟩)

/-- Claim C4: the record persisted for a processed PDF carries the resolved
input path, the stripped literal prompt template text, the summary string,
and the provider-reported prompt and completion token counts (integers,
non-negative by type). -/
theorem C4_record_fields (ctx : BatchCtx) (outputDir : String) (fs : FS) (job : PdfJob)
    (t : Str) (resp : LLMResponse)
    (h0 : fs (outPath outputDir job.stem) = none)
    (hex : extract_text job.pdf = .ok t)
    (hllm : job.llm t = .ok resp)
    (ho : job.openOk = true) (hd : job.dumpOk = true) :
    ∃ r, (process_pdf ctx outputDir fs job).1 (outPath outputDir job.stem) =
        some (.record r) ∧
      r.input_pdf = ctx.resolvePath job.stem ∧
      r.prompt = pyStrip ctx.templateText ∧
      r.input_tokens = resp.prompt_tokens ∧
      r.output_tokens = resp.completion_tokens ∧
      r.summary.length ≤ ctx.max_length := by
  have han : analyze_text ctx.max_length (job.llm t) = .ok
      { summary := if ctx.max_length < resp.content.length then
            resp.content.take ctx.max_length else resp.content
        input_tokens := resp.prompt_tokens
        output_tokens := resp.completion_tokens } := by
    rw [hllm]
    exact analyze_text_ok_of_ok ctx.max_length resp
  refine ⟨builtRecord ctx job
      { summary := if ctx.max_length < resp.content.length then
            resp.content.take ctx.max_length else resp.content
        input_tokens := resp.prompt_tokens
        output_tokens := resp.completion_tokens }, ?_, rfl, rfl, rfl, rfl,
    analyze_text_summary_le han⟩
  rw [process_pdf_success h0 hex han ho hd]
  simp

/-- Claim C5: a PDF whose output file already exists is skipped entirely,
with the filesystem unchanged and no extraction run; consequently a second
identical batch over the state left by a first batch changes no file of the
output directory. -/
theorem C5_skip_idempotence (ctx : BatchCtx) (outputDir : String) (fs : FS)
    (jobs : List PdfJob) (job : PdfJob) (v : FileState)
    (hv : fs (outPath outputDir job.stem) = some v) :
    process_pdf ctx outputDir fs job = (fs, [.skipped job.stem]) ∧
    (run_batch ctx outputDir (run_batch ctx outputDir fs jobs).1 jobs).1 =
      (run_batch ctx outputDir fs jobs).1 :=
  ⟨process_pdf_skip hv,
   run_batch_stable ctx outputDir (run_batch ctx outputDir fs jobs).1 jobs
     (fun j hm => run_batch_settled ctx outputDir fs jobs j hm)⟩

/-- Claim C6: a failing PDF is logged by name and does not abort the batch.
The first job may fail at any of the three steps — extraction raises,
summarization raises, or persistence raises (the open of the output file
fails, or the write into it fails) — and in every case the failure line
naming it is logged and a later well-formed job still gets its record
written. -/
theorem C6_failure_isolation (ctx : BatchCtx) (outputDir : String) (fs : FS)
    (bad good : PdfJob) (rest : List PdfJob) (t : Str) (resp : LLMResponse)
    (hbadout : fs (outPath outputDir bad.stem) = none)
    (hbadfail : (∃ e, extract_text bad.pdf = .error e) ∨
        (∃ u e, extract_text bad.pdf = .ok u ∧
          analyze_text ctx.max_length (bad.llm u) = .error e) ∨
        bad.openOk = false ∨ bad.dumpOk = false)
    (hpaths : outPath outputDir good.stem ≠ outPath outputDir bad.stem)
    (hgoodout : fs (outPath outputDir good.stem) = none)
    (hex : extract_text good.pdf = .ok t)
    (hllm : good.llm t = .ok resp)
    (ho : good.openOk = true) (hd : good.dumpOk = true) :
    (∃ a, analyze_text ctx.max_length (good.llm t) = .ok a ∧
      (run_batch ctx outputDir fs (bad :: good :: rest)).1 (outPath outputDir good.stem) =
        some (.record (builtRecord ctx good a))) ∧
    LogEntry.failed bad.stem ∈ (run_batch ctx outputDir fs (bad :: good :: rest)).2 := by
  have hbadstep :
      (process_pdf ctx outputDir fs bad).1 (outPath outputDir good.stem) = none ∧
      LogEntry.failed bad.stem ∈ (process_pdf ctx outputDir fs bad).2 := by
    cases hex2 : extract_text bad.pdf with
    | error e =>
      rw [@process_pdf_extract_err ctx outputDir fs bad e hbadout hex2]
      exact ⟨hgoodout, by simp⟩
    | ok u =>
      cases han2 : analyze_text ctx.max_length (bad.llm u) with
      | error e =>
        rw [@process_pdf_analyze_err ctx outputDir fs bad u e hbadout hex2 han2]
        exact ⟨hgoodout, by simp⟩
      | ok a =>
        cases ho2 : bad.openOk with
        | false =>
          rw [@process_pdf_open_fail ctx outputDir fs bad u a hbadout hex2 han2 ho2]
          exact ⟨hgoodout, by simp⟩
        | true =>
          cases hd2 : bad.dumpOk with
          | false =>
            rw [@process_pdf_dump_fail ctx outputDir fs bad u a hbadout hex2 han2 ho2 hd2]
            refine ⟨?_, by simp⟩
            simp only [if_neg hpaths]
            exact hgoodout
          | true =>
            exfalso
            rcases hbadfail with ⟨e, he⟩ | ⟨u2, e, hu2, he⟩ | hof | hdf
            · rw [hex2] at he; cases he
            · rw [hex2] at hu2
              injection hu2 with h
              subst h
              rw [han2] at he; cases he
            · rw [ho2] at hof; cases hof
            · rw [hd2] at hdf; cases hdf
  have han : analyze_text ctx.max_length (good.llm t) = .ok
      { summary := if ctx.max_length < resp.content.length then
            resp.content.take ctx.max_length else resp.content
        input_tokens := resp.prompt_tokens
        output_tokens := resp.completion_tokens } := by
    rw [hllm]
    exact analyze_text_ok_of_ok ctx.max_length resp
  constructor
  · refine ⟨_, han, ?_⟩
    rw [run_batch_fst_cons, run_batch_fst_cons]
    have hgoodstep := process_pdf_success hbadstep.1 hex han ho hd
    refine run_batch_preserves ?_
    rw [hgoodstep]
    simp
  · rw [run_batch_snd_cons]
    exact List.mem_append.mpr (Or.inl hbadstep.2)

/-- Witness for C4 at a concrete input: the persisted record carries the
resolved path, the stripped template, the token counts 5 and 8, and a
summary within the limit. -/
theorem C4_record_fields_witness :
    ∃ r, (process_pdf ⟨20, " T ".data, id⟩ "out" (fun _ => none)
          ⟨"report", .ok ["Hello".data], fun _ => .ok ⟨"gen".data, 5, 8⟩, true, true⟩).1
        (outPath "out" "report") = some (.record r) ∧
      r.input_pdf = "report" ∧
      r.prompt = pyStrip " T ".data ∧
      r.input_tokens = 5 ∧
      r.output_tokens = 8 ∧
      r.summary.length ≤ 20 :=
  C4_record_fields ⟨20, " T ".data, id⟩ "out" (fun _ => none)
    ⟨"report", .ok ["Hello".data], fun _ => .ok ⟨"gen".data, 5, 8⟩, true, true⟩
    "Hello\n".data ⟨"gen".data, 5, 8⟩ rfl rfl rfl rfl rfl

/-- Witness for C5 at a concrete input: a job whose output file already
exists is skipped with the filesystem unchanged, and a one-job batch is
idempotent. -/
theorem C5_skip_idempotence_witness :
    process_pdf ⟨500, [], id⟩ "out" (fun _ => some FileState.emptyFile)
        ⟨"doc", .error "e", fun _ => .error "e", true, true⟩ =
      ((fun _ => some FileState.emptyFile), [LogEntry.skipped "doc"]) ∧
    (run_batch ⟨500, [], id⟩ "out"
        (run_batch ⟨500, [], id⟩ "out" (fun _ => some FileState.emptyFile)
          [⟨"doc", .error "e", fun _ => .error "e", true, true⟩]).1
        [⟨"doc", .error "e", fun _ => .error "e", true, true⟩]).1 =
      (run_batch ⟨500, [], id⟩ "out" (fun _ => some FileState.emptyFile)
        [⟨"doc", .error "e", fun _ => .error "e", true, true⟩]).1 :=
  C5_skip_idempotence ⟨500, [], id⟩ "out" (fun _ => some FileState.emptyFile)
    [⟨"doc", .error "e", fun _ => .error "e", true, true⟩]
    ⟨"doc", .error "e", fun _ => .error "e", true, true⟩ FileState.emptyFile rfl

/-- Witness for C6 at a concrete input: with a first job failing extraction
and a second well-formed job, the batch writes the record of the second
job and logs the failure of the first by name. -/
theorem C6_failure_isolation_witness :
    (∃ a, analyze_text 20 (Except.ok (⟨"ok".data, 1, 2⟩ : LLMResponse)) = .ok a ∧
      (run_batch ⟨20, [], id⟩ "out" (fun _ => none)
          [⟨"bad", .error "boom", fun _ => .error "boom", true, true⟩,
           ⟨"good", .ok ["Good".data], fun _ => .ok ⟨"ok".data, 1, 2⟩, true, true⟩]).1
        (outPath "out" "good") =
        some (.record (builtRecord ⟨20, [], id⟩
          ⟨"good", .ok ["Good".data], fun _ => .ok ⟨"ok".data, 1, 2⟩, true, true⟩ a))) ∧
    LogEntry.failed "bad" ∈
      (run_batch ⟨20, [], id⟩ "out" (fun _ => none)
          [⟨"bad", .error "boom", fun _ => .error "boom", true, true⟩,
           ⟨"good", .ok ["Good".data], fun _ => .ok ⟨"ok".data, 1, 2⟩, true, true⟩]).2 :=
  C6_failure_isolation ⟨20, [], id⟩ "out" (fun _ => none)
    ⟨"bad", .error "boom", fun _ => .error "boom", true, true⟩
    ⟨"good", .ok ["Good".data], fun _ => .ok ⟨"ok".data, 1, 2⟩, true, true⟩
    [] "Good\n".data ⟨"ok".data, 1, 2⟩
    rfl (Or.inl ⟨"boom", rfl⟩) (by decide) rfl rfl rfl rfl rfl

end ApexPdf
